import Mathlib

/-!
# Image-edit session controller: a shallow embedding

This file embeds the single source file of the repository
(`src/index.tsx`, a browser front-end that uploads an image, submits an
edit instruction to a generation API and renders/downloads the result)
as pure Lean functions over an explicit session-state record, and proves
the specified properties of the four event handlers.

Modelling conventions:
* DOM state touched by the script (the result container's children, the
  hidden/disabled flags, the prompt text) is part of `SessionState`.
* JavaScript string truthiness (`if (s)`) is `truthy`: absent or empty
  is falsy.
* The network call is abstracted as an `Except Unit GenResponse`
  argument: `Except.error` stands for any exception thrown while
  awaiting the request or while reading a malformed response object
  (both are caught by the same `catch` in the source), `Except.ok` for a
  structurally well-formed response object.
* Browser side effects that leave the page (alert dialogs, triggered
  file saves, the outbound API request) are returned as explicit data
  next to the new state.
-/

namespace ImgEdit

/-- A candidate part's inline binary payload (`part.inlineData`). -/
structure InlineData where
  mimeType : String
  data : String
deriving DecidableEq

/-- One content part of a candidate: may carry inline binary data,
text, both, or neither (`part.inlineData` / `part.text`). -/
structure Part where
  inlineData : Option InlineData
  text : Option String
deriving DecidableEq

/-- One candidate of the response (`response.candidates[i].content.parts`). -/
structure Candidate where
  parts : List Part
deriving DecidableEq

/-- The response object: `response.candidates` may be absent. -/
structure GenResponse where
  candidates : Option (List Candidate)
deriving DecidableEq

/-- An element rendered into the result container: the loader `div`, an
`img` with its `src` URL and `alt` text, a `p.model-text` block, or a
`p.error` message. -/
inductive Rendered where
  | loaderElem : Rendered
  | image (url : String) (alt : String) : Rendered
  | textBlock (t : String) : Rendered
  | errorMsg (m : String) : Rendered
deriving DecidableEq

/-- The session state: the three module-level variables of
`src/index.tsx` (`imageBase64`, `imageMimeType`, `editedImageSrc`)
together with the DOM state the script reads or writes. -/
structure SessionState where
  imageBase64 : Option String
  imageMimeType : Option String
  editedImageSrc : Option String
  promptValue : String
  editButtonDisabled : Bool
  loaderHidden : Bool
  downloadButtonHidden : Bool
  resultContainer : List Rendered
  originalImageSrc : Option String
  originalImageShown : Bool
  uploadPlaceholderHidden : Bool
deriving DecidableEq

/-- JavaScript truthiness of a possibly-absent string: `null`/`undefined`
and the empty string are falsy. -/
def truthy : Option String → Bool
  | none => false
  | some s => !s.isEmpty

/-- Split a character list at every occurrence of `sep`; the result is
never empty (splitting the empty list gives one empty piece), matching
the behaviour of JavaScript `String.prototype.split` with a one-character
separator. -/
def splitOnChar (sep : Char) : List Char → List (List Char)
  | [] => [[]]
  | c :: cs =>
    let r := splitOnChar sep cs
    if c = sep then [] :: r
    else
      match r with
      | [] => [[c]]
      | h :: t => (c :: h) :: t

/-- JavaScript `s.split(sep)` for a one-character separator. -/
def jsSplit (sep : Char) (s : String) : List String :=
  (splitOnChar sep s.data).map (fun cs => String.mk cs)

/-- JavaScript `!s.trim()`: trimming leading and trailing whitespace
leaves the empty string exactly when every character is whitespace. -/
def isBlank (s : String) : Bool := s.data.all Char.isWhitespace

/-- The state at page load: the three variables are `null`, the prompt
is pre-seeded (line 27), and the initial markup shows the placeholders
with the edit button disabled and loader/download hidden. -/
def initState : SessionState where
  imageBase64 := none
  imageMimeType := none
  editedImageSrc := none
  promptValue := "modifica la imagen y dale un aspecto profesional, donde los colores destaquen y resalten lo mejor de la fotografia"
  editButtonDisabled := true
  loaderHidden := true
  downloadButtonHidden := true
  resultContainer := []
  originalImageSrc := none
  originalImageShown := false
  uploadPlaceholderHidden := false

/-- The `change` handler of the example-prompt dropdown (lines 30-35):
a truthy (non-empty) selected value overwrites the prompt text; a falsy
one is ignored. -/
def promptExamplesChange (selectedValue : String) (st : SessionState) : SessionState :=
  if !selectedValue.isEmpty then { st with promptValue := selectedValue } else st

/-- The body of `reader.onload` (lines 46-64), applied to the data URL
produced by the file read. Returns the new state and, when the body
throws, the message of the exception: `Invalid data URL format` when the
URL does not split on `,` into exactly two pieces, or a `TypeError` when
the piece before the comma has nothing after a `:`
(`dataUrlParts[0].split(':')[1]` is `undefined` and `.split(';')` on it
throws). On a throw no assignment has happened yet, so the state is
returned unchanged. -/
def onloadCallback (result : String) (st : SessionState) :
    SessionState × Option String :=
  match jsSplit ',' result with
  | [metaPart, payloadPart] =>
    match (jsSplit ':' metaPart).get? 1 with
    | none => (st, some "TypeError")
    | some afterColon =>
      let mimeTypePart := (jsSplit ';' afterColon).headD ""
      ({ st with
          imageBase64 := some payloadPart
          imageMimeType := some mimeTypePart
          originalImageSrc := some result
          originalImageShown := true
          uploadPlaceholderHidden := true
          editButtonDisabled := false }, none)
  | _ => (st, some "Invalid data URL format")

/-- Result of the file-input `change` handler: the new state, the alert
dialogs shown, and the message of an exception that escaped the handler
uncaught, if any. -/
structure UploadResult where
  state : SessionState
  alerts : List String
  uncaught : Option String
deriving DecidableEq

/-- The file-input `change` handler (lines 38-70). `file` is the data
URL the asynchronous read of the chosen file yields (`none` when no file
was chosen). The `try`/`catch` of lines 44-69 only covers the
synchronous part — constructing the `FileReader`, assigning `onload`,
and calling `readAsDataURL`, none of which throws here — while the
`onload` body runs later, after the `try` block has exited; so an
exception thrown inside `onload` is never caught by the `catch` at line
66, the alert of line 68 never fires, and the exception escapes the
event loop uncaught. -/
def imageUploadChange (file : Option String) (st : SessionState) : UploadResult :=
  match file with
  | none => ⟨st, [], none⟩
  | some dataUrl =>
    let r := onloadCallback dataUrl st
    ⟨r.1, [], r.2⟩

/-- The data URL built from an inline part (line 145). -/
def mkDataUrl (d : InlineData) : String :=
  "data:" ++ d.mimeType ++ ";base64," ++ d.data

/-- Lines 107-112: clear the container and re-append the loader, unhide
it, disable the edit button, hide the download button, and clear
`editedImageSrc`, all before the request is issued. -/
def setLoading (st : SessionState) : SessionState :=
  { st with
      resultContainer := [Rendered.loaderElem]
      loaderHidden := false
      editButtonDisabled := true
      downloadButtonHidden := true
      editedImageSrc := none }

/-- `displayError` (lines 179-186): replace the container contents with
the error paragraph and hide the download button. -/
def displayError (message : String) (st : SessionState) : SessionState :=
  { st with
      resultContainer := [Rendered.errorMsg message]
      downloadButtonHidden := true }

/-- The advisory of line 167, shown when no candidate is present. -/
def noResponseMsg : String :=
  "No hubo respuesta del modelo. Por favor, inténtalo de nuevo."

/-- The advisory of line 164, shown when no part produced content. -/
def noContentMsg : String :=
  "El modelo no devolvió ningún contenido editable."

/-- The advisory of line 172, shown when the request threw. -/
def genericErrorMsg : String :=
  "Ocurrió un error. Por favor, revisa la consola para más detalles."

/-- One iteration of the part loop (lines 142-162), threading the state
and the `foundContent` flag. A part with truthy `inlineData` appends an
`img`, stores the data URL in `editedImageSrc` and unhides the download
button; otherwise a part with truthy (non-empty) `text` appends a text
block; any other part is skipped. -/
def handlePart (prompt : String) (acc : SessionState × Bool) (p : Part) :
    SessionState × Bool :=
  match p.inlineData with
  | some d =>
    let url := mkDataUrl d
    ({ acc.1 with
        resultContainer := acc.1.resultContainer ++ [Rendered.image url prompt]
        editedImageSrc := some url
        downloadButtonHidden := false }, true)
  | none =>
    match p.text with
    | some t =>
      if t.isEmpty then acc
      else ({ acc.1 with
                resultContainer := acc.1.resultContainer ++ [Rendered.textBlock t] },
            true)
    | none => acc

/-- Lines 137-168: handling of a structurally well-formed response.
The container is cleared; when a first candidate exists its parts are
folded through `handlePart`, and if none produced content the
no-content advisory is displayed; when `candidates` is absent or empty
the no-response advisory is displayed. -/
def handleResponse (prompt : String) (resp : GenResponse) (st : SessionState) :
    SessionState :=
  let st0 := { st with resultContainer := [] }
  match resp.candidates with
  | some (c :: _) =>
    let r := c.parts.foldl (handlePart prompt) (st0, false)
    if r.2 then r.1 else displayError noContentMsg r.1
  | some [] => displayError noResponseMsg st0
  | none => displayError noResponseMsg st0

/-- `callGemini` (lines 105-177): set the loading state, then either
handle the response or display the generic error, and in all cases
(`finally`, lines 173-176) hide the loader and re-enable the edit
button. -/
def callGemini (st : SessionState) (prompt : String)
    (outcome : Except Unit GenResponse) : SessionState :=
  let st0 := setLoading st
  let st1 :=
    match outcome with
    | Except.ok resp => handleResponse prompt resp st0
    | Except.error _ => displayError genericErrorMsg st0
  { st1 with loaderHidden := true, editButtonDisabled := false }

/-- The advisory of line 75. -/
def noImageMsg : String := "Por favor, sube una imagen primero."

/-- The advisory of line 81. -/
def noPromptMsg : String := "Por favor, ingresa una instrucción de edición."

/-- Result of the edit-button `click` handler: the new state, the alert
dialogs shown, and whether the generation API was contacted. -/
structure SubmitResult where
  state : SessionState
  alerts : List String
  apiContacted : Bool
deriving DecidableEq

/-- The edit-button `click` handler (lines 73-86): abort with an alert
when `imageBase64` or `imageMimeType` is falsy, or when the trimmed
prompt is empty; otherwise call `callGemini` with the prompt and the
stored image. `outcome` is the result of the request that would be
issued. -/
def editButtonClick (st : SessionState) (outcome : Except Unit GenResponse) :
    SubmitResult :=
  if !truthy st.imageBase64 || !truthy st.imageMimeType then
    ⟨st, [noImageMsg], false⟩
  else
    let prompt := st.promptValue
    if isBlank prompt then
      ⟨st, [noPromptMsg], false⟩
    else
      ⟨callGemini st prompt outcome, [], true⟩

/-- The advisory of line 91. -/
def noDownloadMsg : String := "No hay imagen editada para descargar."

/-- The fixed filename of line 97. -/
def downloadFilename : String := "imagen-editada.png"

/-- Result of the download-button `click` handler: the new state, the
alert dialogs shown, and the file saves triggered as (href, filename)
pairs. -/
structure DownloadResult where
  state : SessionState
  alerts : List String
  saves : List (String × String)
deriving DecidableEq

/-- The download-button `click` handler (lines 89-101): when
`editedImageSrc` is falsy, alert and stop; otherwise build a transient
link and click it, triggering a save of the stored URL under the fixed
filename. No session variable is assigned. -/
def downloadButtonClick (st : SessionState) : DownloadResult :=
  if truthy st.editedImageSrc then
    ⟨st, [], [(st.editedImageSrc.getD "", downloadFilename)]⟩
  else
    ⟨st, [noDownloadMsg], []⟩

/-- A user-triggered transition of the session: choosing an example
prompt, selecting a file (carrying the data URL its read yields),
submitting an edit (carrying the request's outcome), or downloading. -/
inductive Event where
  | exampleSelect (value : String) : Event
  | upload (file : Option String) : Event
  | editSubmit (outcome : Except Unit GenResponse) : Event
  | download : Event

/-- The state reached after one event, discarding the side effects. -/
def step (st : SessionState) (e : Event) : SessionState :=
  match e with
  | Event.exampleSelect v => promptExamplesChange v st
  | Event.upload f => (imageUploadChange f st).state
  | Event.editSubmit outcome => (editButtonClick st outcome).state
  | Event.download => (downloadButtonClick st).state

/-- The states reachable from page load through event handlers. -/
inductive Reachable : SessionState → Prop where
  | init : Reachable initState
  | next {st : SessionState} (h : Reachable st) (e : Event) : Reachable (step st e)

/-! ## Derived notions about a candidate's part list -/

/-- The `inlineData` of the last part that carries one, if any. -/
def lastInline : List Part → Option InlineData
  | [] => none
  | p :: rest =>
    match lastInline rest with
    | some d => some d
    | none => p.inlineData

/-- Whether some part carries inline binary data. -/
def hasInline (parts : List Part) : Bool :=
  parts.any fun p => p.inlineData.isSome

/-- Whether a part sets `foundContent` in the loop of lines 142-162:
it has truthy `inlineData` or truthy (non-empty) `text`. -/
def producesContent (p : Part) : Bool :=
  p.inlineData.isSome ||
    (match p.text with
     | some t => !t.isEmpty
     | none => false)

/-! ## Characterising the part loop -/

lemma handlePart_snd (prompt : String) (acc : SessionState × Bool) (p : Part) :
    (handlePart prompt acc p).2 = (acc.2 || producesContent p) := by
  cases hp : p.inlineData with
  | some d => simp [handlePart, producesContent, hp]
  | none =>
    cases ht : p.text with
    | some t =>
      by_cases he : t.isEmpty <;> simp [handlePart, producesContent, hp, ht, he]
    | none => simp [handlePart, producesContent, hp, ht]

lemma foldl_handlePart_found (prompt : String) (parts : List Part)
    (acc : SessionState × Bool) :
    (parts.foldl (handlePart prompt) acc).2 =
      (acc.2 || parts.any producesContent) := by
  induction parts generalizing acc with
  | nil => simp
  | cons p rest ih =>
    simp only [List.foldl_cons, List.any_cons]
    rw [ih, handlePart_snd, Bool.or_assoc]

lemma foldl_handlePart_editedImageSrc (prompt : String) (parts : List Part)
    (acc : SessionState × Bool) :
    (parts.foldl (handlePart prompt) acc).1.editedImageSrc =
      match lastInline parts with
      | some d => some (mkDataUrl d)
      | none => acc.1.editedImageSrc := by
  induction parts generalizing acc with
  | nil => rfl
  | cons p rest ih =>
    simp only [List.foldl_cons, lastInline]
    rw [ih]
    cases h : lastInline rest with
    | some d => simp
    | none =>
      cases hp : p.inlineData with
      | some d => simp [handlePart, hp]
      | none =>
        cases ht : p.text with
        | some t =>
          by_cases he : t.isEmpty <;> simp [handlePart, hp, ht, he]
        | none => simp [handlePart, hp, ht]

lemma foldl_handlePart_downloadHidden (prompt : String) (parts : List Part)
    (acc : SessionState × Bool) :
    (parts.foldl (handlePart prompt) acc).1.downloadButtonHidden =
      (if hasInline parts then false else acc.1.downloadButtonHidden) := by
  induction parts generalizing acc with
  | nil => simp [hasInline]
  | cons p rest ih =>
    simp only [List.foldl_cons]
    rw [ih]
    cases hp : p.inlineData with
    | some d => simp [handlePart, hasInline, hp]
    | none =>
      cases ht : p.text with
      | some t =>
        by_cases he : t.isEmpty <;>
          simp [handlePart, hasInline, hp, ht, he]
      | none => simp [handlePart, hasInline, hp, ht]

lemma foldl_handlePart_imageFields (prompt : String) (parts : List Part)
    (acc : SessionState × Bool) :
    (parts.foldl (handlePart prompt) acc).1.imageBase64 = acc.1.imageBase64 ∧
    (parts.foldl (handlePart prompt) acc).1.imageMimeType = acc.1.imageMimeType := by
  induction parts generalizing acc with
  | nil => exact ⟨rfl, rfl⟩
  | cons p rest ih =>
    simp only [List.foldl_cons]
    rw [(ih _).1, (ih _).2]
    cases hp : p.inlineData with
    | some d => simp [handlePart, hp]
    | none =>
      cases ht : p.text with
      | some t => by_cases he : t.isEmpty <;> simp [handlePart, hp, ht, he]
      | none => simp [handlePart, hp, ht]

lemma foldl_handlePart_of_empty (prompt : String) (parts : List Part)
    (acc : SessionState × Bool)
    (h : ∀ p ∈ parts, p.inlineData = none ∧ p.text = none) :
    parts.foldl (handlePart prompt) acc = acc := by
  induction parts generalizing acc with
  | nil => rfl
  | cons p rest ih =>
    have hp := h p (List.mem_cons_self p rest)
    simp only [List.foldl_cons, handlePart, hp.1, hp.2]
    exact ih _ (fun q hq => h q (List.mem_cons_of_mem p hq))

lemma hasInline_true_of_lastInline (parts : List Part) (d : InlineData)
    (h : lastInline parts = some d) : hasInline parts = true := by
  induction parts generalizing d with
  | nil => simp [lastInline] at h
  | cons p rest ih =>
    rw [lastInline] at h
    cases hr : lastInline rest with
    | some d' =>
      have hrest := ih d' hr
      simp only [hasInline] at hrest
      simp [hasInline, hrest]
    | none =>
      rw [hr] at h
      have hp : p.inlineData = some d := h
      simp [hasInline, hp]

lemma any_producesContent_of_hasInline (parts : List Part)
    (h : hasInline parts = true) : parts.any producesContent = true := by
  simp only [hasInline, List.any_eq_true] at h
  obtain ⟨p, hp, hd⟩ := h
  refine List.any_eq_true.mpr ⟨p, hp, ?_⟩
  simp [producesContent, hd]

lemma getLast?_cons_eq {α : Type} (a : α) (l : List α) :
    (a :: l).getLast? = some (l.getLast?.getD a) := by
  induction l generalizing a with
  | nil => rfl
  | cons b l ih =>
    rw [List.getLast?_cons_cons, ih b]
    simp

/-- `lastInline` is the last element of the parts' inline payloads. -/
lemma lastInline_eq_getLast (parts : List Part) :
    lastInline parts = (parts.filterMap Part.inlineData).getLast? := by
  induction parts with
  | nil => rfl
  | cons p rest ih =>
    cases hp : p.inlineData with
    | some d =>
      simp only [lastInline, List.filterMap_cons, hp, getLast?_cons_eq, ih]
      cases h : (rest.filterMap Part.inlineData).getLast? <;> simp [h]
    | none =>
      simp only [lastInline, List.filterMap_cons, hp, ih]
      cases h : (rest.filterMap Part.inlineData).getLast? <;> simp [h]

/-! ## Characterising `handleResponse` and `callGemini` -/

lemma handleResponse_noCandidates (prompt : String) (resp : GenResponse)
    (st : SessionState)
    (h : resp.candidates = none ∨ resp.candidates = some []) :
    handleResponse prompt resp st =
      displayError noResponseMsg { st with resultContainer := [] } := by
  rcases h with h | h <;> simp [handleResponse, h]

lemma handleResponse_cons_editedImageSrc (prompt : String) (resp : GenResponse)
    (c : Candidate) (cs : List Candidate) (st : SessionState)
    (hc : resp.candidates = some (c :: cs)) :
    (handleResponse prompt resp st).editedImageSrc =
      match lastInline c.parts with
      | some d => some (mkDataUrl d)
      | none => st.editedImageSrc := by
  simp only [handleResponse, hc]
  cases hf : (c.parts.foldl (handlePart prompt)
      ({ st with resultContainer := [] }, false)).2 <;>
    simp [hf, displayError, foldl_handlePart_editedImageSrc]

lemma handleResponse_cons_downloadHidden (prompt : String) (resp : GenResponse)
    (c : Candidate) (cs : List Candidate) (st : SessionState)
    (hc : resp.candidates = some (c :: cs))
    (hdl : st.downloadButtonHidden = true) :
    (handleResponse prompt resp st).downloadButtonHidden =
      !hasInline c.parts := by
  simp only [handleResponse, hc]
  cases hin : hasInline c.parts with
  | true =>
    have hfound : (c.parts.foldl (handlePart prompt)
        ({ st with resultContainer := [] }, false)).2 = true := by
      rw [foldl_handlePart_found]
      simp [any_producesContent_of_hasInline c.parts hin]
    simp [hfound, foldl_handlePart_downloadHidden, hin]
  | false =>
    cases hf : (c.parts.foldl (handlePart prompt)
        ({ st with resultContainer := [] }, false)).2 <;>
      simp [hf, displayError, foldl_handlePart_downloadHidden, hin, hdl]

lemma handleResponse_imageFields (prompt : String) (resp : GenResponse)
    (st : SessionState) :
    (handleResponse prompt resp st).imageBase64 = st.imageBase64 ∧
    (handleResponse prompt resp st).imageMimeType = st.imageMimeType := by
  cases hc : resp.candidates with
  | none => simp [handleResponse, hc, displayError]
  | some cands =>
    cases cands with
    | nil => simp [handleResponse, hc, displayError]
    | cons c cs =>
      simp only [handleResponse, hc]
      cases hf : (c.parts.foldl (handlePart prompt)
          ({ st with resultContainer := [] }, false)).2 <;>
        simp [hf, displayError, foldl_handlePart_imageFields]

/-- The `finally` of lines 173-176: after `callGemini` the loader is
hidden and the edit button enabled, on every path. -/
lemma callGemini_finally (st : SessionState) (prompt : String)
    (outcome : Except Unit GenResponse) :
    (callGemini st prompt outcome).loaderHidden = true ∧
    (callGemini st prompt outcome).editButtonDisabled = false := by
  cases outcome <;> exact ⟨rfl, rfl⟩

lemma callGemini_editedImageSrc (st : SessionState) (prompt : String)
    (outcome : Except Unit GenResponse) :
    (callGemini st prompt outcome).editedImageSrc =
      match outcome with
      | Except.error _ => none
      | Except.ok resp =>
        match resp.candidates with
        | some (c :: _) =>
          (match lastInline c.parts with
           | some d => some (mkDataUrl d)
           | none => none)
        | some [] => none
        | none => none := by
  cases outcome with
  | error e => simp [callGemini, setLoading, displayError]
  | ok resp =>
    cases hc : resp.candidates with
    | none => simp [callGemini, handleResponse, hc, setLoading, displayError]
    | some cands =>
      cases cands with
      | nil => simp [callGemini, handleResponse, hc, setLoading, displayError]
      | cons c cs =>
        have h := handleResponse_cons_editedImageSrc prompt resp c cs
          (setLoading st) hc
        have hsl : (setLoading st).editedImageSrc = none := rfl
        rw [hsl] at h
        simp only [hc]
        exact h

lemma callGemini_downloadHidden (st : SessionState) (prompt : String)
    (outcome : Except Unit GenResponse) :
    (callGemini st prompt outcome).downloadButtonHidden =
      match outcome with
      | Except.error _ => true
      | Except.ok resp =>
        match resp.candidates with
        | some (c :: _) => !hasInline c.parts
        | some [] => true
        | none => true := by
  cases outcome with
  | error e => simp [callGemini, setLoading, displayError]
  | ok resp =>
    cases hc : resp.candidates with
    | none => simp [callGemini, handleResponse, hc, setLoading, displayError]
    | some cands =>
      cases cands with
      | nil => simp [callGemini, handleResponse, hc, setLoading, displayError]
      | cons c cs =>
        have h := handleResponse_cons_downloadHidden prompt resp c cs
          (setLoading st) hc rfl
        simp only [hc]
        exact h

lemma callGemini_imageFields (st : SessionState) (prompt : String)
    (outcome : Except Unit GenResponse) :
    (callGemini st prompt outcome).imageBase64 = st.imageBase64 ∧
    (callGemini st prompt outcome).imageMimeType = st.imageMimeType := by
  cases outcome with
  | error e => exact ⟨rfl, rfl⟩
  | ok resp =>
    have h := handleResponse_imageFields prompt resp (setLoading st)
    have h1 : (setLoading st).imageBase64 = st.imageBase64 := rfl
    have h2 : (setLoading st).imageMimeType = st.imageMimeType := rfl
    rw [h1, h2] at h
    exact h

/-! ## Further helper lemmas -/

lemma hasInline_cons (p : Part) (rest : List Part) :
    hasInline (p :: rest) = (p.inlineData.isSome || hasInline rest) := by
  simp [hasInline]

lemma lastInline_isSome (parts : List Part) :
    (lastInline parts).isSome = hasInline parts := by
  induction parts with
  | nil => rfl
  | cons p rest ih =>
    rw [lastInline, hasInline_cons, ← ih]
    cases hr : lastInline rest with
    | some d => simp
    | none => simp

lemma mkDataUrl_ne_empty (d : InlineData) : mkDataUrl d ≠ "" := by
  intro h
  have hd := congrArg String.data h
  rw [mkDataUrl] at hd
  simp only [String.data_append] at hd
  simp at hd

lemma promptExamplesChange_editedImageSrc (v : String) (st : SessionState) :
    (promptExamplesChange v st).editedImageSrc = st.editedImageSrc := by
  simp only [promptExamplesChange]
  split <;> rfl

lemma imageUploadChange_editedImageSrc (f : Option String) (st : SessionState) :
    (imageUploadChange f st).state.editedImageSrc = st.editedImageSrc := by
  cases f with
  | none => rfl
  | some dataUrl =>
    simp only [imageUploadChange, onloadCallback]
    split
    · split <;> rfl
    · rfl

lemma downloadButtonClick_state (st : SessionState) :
    (downloadButtonClick st).state = st := by
  simp only [downloadButtonClick]
  split <;> rfl

lemma callGemini_result_nonempty (st : SessionState) (prompt : String)
    (outcome : Except Unit GenResponse) (u : String)
    (hu : (callGemini st prompt outcome).editedImageSrc = some u) :
    u ≠ "" := by
  rw [callGemini_editedImageSrc] at hu
  cases outcome with
  | error e => simp at hu
  | ok resp =>
    cases hc : resp.candidates with
    | none => simp [hc] at hu
    | some cands =>
      cases cands with
      | nil => simp [hc] at hu
      | cons c cs =>
        simp only [hc] at hu
        cases hl : lastInline c.parts with
        | none => rw [hl] at hu; simp at hu
        | some d =>
          rw [hl] at hu
          simp at hu
          rw [← hu]
          exact mkDataUrl_ne_empty d

/-- In every reachable state, a stored result URL is non-empty: it is
only ever written by line 151 as a `data:`-prefixed template string. -/
lemma reachable_result_nonempty {st : SessionState} (h : Reachable st) :
    ∀ u, st.editedImageSrc = some u → u ≠ "" := by
  induction h with
  | init =>
    intro u hu
    simp [initState] at hu
  | @next st hr e ih =>
    intro u hu
    cases e with
    | exampleSelect v =>
      rw [step, promptExamplesChange_editedImageSrc] at hu
      exact ih u hu
    | upload f =>
      rw [step, imageUploadChange_editedImageSrc] at hu
      exact ih u hu
    | editSubmit outcome =>
      rw [step] at hu
      by_cases hb : (!truthy st.imageBase64 || !truthy st.imageMimeType) = true
      · simp only [editButtonClick, hb, if_true] at hu
        exact ih u hu
      · by_cases hp : isBlank st.promptValue = true
        · simp only [editButtonClick, hb, if_false, hp, if_true, Bool.false_eq_true] at hu
          exact ih u hu
        · simp only [editButtonClick, hb, hp, if_false, Bool.false_eq_true] at hu
          exact callGemini_result_nonempty st st.promptValue outcome u hu
    | download =>
      rw [step, downloadButtonClick_state] at hu
      exact ih u hu

/-! ## The claims -/

/-- C1: for every edit submission that passes the preconditions and
issues a request — whatever the outcome of the request (handled
response, contentless response, or a thrown error) — the busy indicator
ends hidden and the submit control ends re-enabled, by the `finally` of
lines 173-176. -/
theorem claim_C1 (st : SessionState) (outcome : Except Unit GenResponse)
    (hapi : (editButtonClick st outcome).apiContacted = true) :
    (editButtonClick st outcome).state.loaderHidden = true ∧
    (editButtonClick st outcome).state.editButtonDisabled = false := by
  by_cases hb : (!truthy st.imageBase64 || !truthy st.imageMimeType) = true
  · simp [editButtonClick, hb] at hapi
  · by_cases hp : isBlank st.promptValue = true
    · simp [editButtonClick, hb, hp] at hapi
    · simp only [editButtonClick, hb, hp, if_false, Bool.false_eq_true]
      exact callGemini_finally st st.promptValue outcome

theorem claim_C1_witness :
    (editButtonClick
        { initState with
            imageBase64 := some "Zm9v"
            imageMimeType := some "image/png"
            promptValue := "p" }
        (Except.error ())).state.loaderHidden = true ∧
    (editButtonClick
        { initState with
            imageBase64 := some "Zm9v"
            imageMimeType := some "image/png"
            promptValue := "p" }
        (Except.error ())).state.editButtonDisabled = false :=
  claim_C1
    { initState with
        imageBase64 := some "Zm9v"
        imageMimeType := some "image/png"
        promptValue := "p" }
    (Except.error ()) (by decide)

/-- C2: an edit submission with no image data loaded, or with a blank
(all-whitespace) prompt, shows an alert, does not contact the API, and
leaves the session state unchanged (lines 74-83). -/
theorem claim_C2 (st : SessionState) (outcome : Except Unit GenResponse)
    (h : st.imageBase64 = none ∨ isBlank st.promptValue = true) :
    (editButtonClick st outcome).state = st ∧
    (editButtonClick st outcome).apiContacted = false ∧
    (editButtonClick st outcome).alerts ≠ [] := by
  rcases h with h | h
  · simp [editButtonClick, truthy, h]
  · by_cases hb : (!truthy st.imageBase64 || !truthy st.imageMimeType) = true
    · simp [editButtonClick, hb]
    · simp [editButtonClick, hb, h]

theorem claim_C2_witness :
    (editButtonClick initState (Except.error ())).state = initState ∧
    (editButtonClick initState (Except.error ())).apiContacted = false ∧
    (editButtonClick initState (Except.error ())).alerts ≠ [] :=
  claim_C2 initState (Except.error ()) (Or.inl rfl)

/-- C3: a file whose read yields a data URL with no comma makes the
`onload` body throw `Invalid data URL format` before any assignment, so
the session state is unchanged — but, because the `throw` happens in the
asynchronous `onload` callback after the `try`/`catch` of lines 44-69
has already exited, no alert is ever shown and the exception escapes
uncaught: the user-visible error notice the claim requires does not
appear. -/
theorem claim_C3 :
    imageUploadChange (some "imagenrota") initState =
      ⟨initState, [], some "Invalid data URL format"⟩ := by decide

/-- C4: when the first candidate's parts carry two or more inline-binary
payloads, each one overwrites the stored result, so the final stored
result is the data URL built from the last payload and the download
control is revealed (lines 142-152). -/
theorem claim_C4 (st : SessionState) (prompt : String) (resp : GenResponse)
    (c : Candidate) (cs : List Candidate) (d : InlineData)
    (hc : resp.candidates = some (c :: cs))
    (hn : 2 ≤ (c.parts.filterMap Part.inlineData).length)
    (hd : (c.parts.filterMap Part.inlineData).getLast? = some d) :
    (callGemini st prompt (Except.ok resp)).editedImageSrc =
      some (mkDataUrl d) ∧
    (callGemini st prompt (Except.ok resp)).downloadButtonHidden = false := by
  have hli : lastInline c.parts = some d := by
    rw [lastInline_eq_getLast, hd]
  constructor
  · rw [callGemini_editedImageSrc]
    simp only [hc, hli]
  · rw [callGemini_downloadHidden]
    simp only [hc]
    simp [hasInline_true_of_lastInline c.parts d hli]

theorem claim_C4_witness :
    (callGemini initState "p"
        (Except.ok ⟨some [⟨[⟨some ⟨"image/png", "AAAA"⟩, none⟩,
          ⟨some ⟨"image/png", "BBBB"⟩, none⟩]⟩]⟩)).editedImageSrc =
      some (mkDataUrl ⟨"image/png", "BBBB"⟩) ∧
    (callGemini initState "p"
        (Except.ok ⟨some [⟨[⟨some ⟨"image/png", "AAAA"⟩, none⟩,
          ⟨some ⟨"image/png", "BBBB"⟩, none⟩]⟩]⟩)).downloadButtonHidden
      = false :=
  claim_C4 initState "p"
    ⟨some [⟨[⟨some ⟨"image/png", "AAAA"⟩, none⟩,
      ⟨some ⟨"image/png", "BBBB"⟩, none⟩]⟩]⟩
    ⟨[⟨some ⟨"image/png", "AAAA"⟩, none⟩,
      ⟨some ⟨"image/png", "BBBB"⟩, none⟩]⟩
    [] ⟨"image/png", "BBBB"⟩ rfl (by decide) (by decide)

/-- C5: `editedImageSrc` is cleared by the loading block (line 112)
before the request is issued, and after `callGemini` it is present
exactly when the outcome is a response whose first candidate has some
inline-binary part; on every error or contentless path it stays
absent. -/
theorem claim_C5 (st : SessionState) (prompt : String)
    (outcome : Except Unit GenResponse) :
    (setLoading st).editedImageSrc = none ∧
    ((callGemini st prompt outcome).editedImageSrc ≠ none ↔
      ∃ resp c cs, outcome = Except.ok resp ∧
        resp.candidates = some (c :: cs) ∧ hasInline c.parts = true) := by
  refine ⟨rfl, ?_⟩
  rw [callGemini_editedImageSrc]
  cases outcome with
  | error e => simp
  | ok resp =>
    cases hc : resp.candidates with
    | none => simp [hc]
    | some cands =>
      cases cands with
      | nil => simp [hc]
      | cons c cs =>
        simp only [hc]
        constructor
        · intro hne
          refine ⟨resp, c, cs, rfl, hc, ?_⟩
          rw [← lastInline_isSome]
          cases hl : lastInline c.parts with
          | none => rw [hl] at hne; simp at hne
          | some d => simp
        · rintro ⟨resp', c', cs', heq, hc', hin⟩
          injection heq with heq'
          subst heq'
          rw [hc] at hc'
          injection hc' with hcc
          injection hcc with hc2 hcs
          subst hc2
          rw [← lastInline_isSome] at hin
          cases hl : lastInline c.parts with
          | none => rw [hl] at hin; simp at hin
          | some d => simp [hl]

/-- C6: `imageBase64` and `imageMimeType` are both present or both
absent: every event handler preserves this, the two are only assigned
together by the one file-read callback (lines 56-57), and the invariant
holds in every reachable state. -/
theorem claim_C6 :
    (∀ (st : SessionState) (e : Event),
      st.imageBase64.isSome = st.imageMimeType.isSome →
      (step st e).imageBase64.isSome = (step st e).imageMimeType.isSome) ∧
    (∀ st : SessionState, Reachable st →
      st.imageBase64.isSome = st.imageMimeType.isSome) := by
  have hstep : ∀ (st : SessionState) (e : Event),
      st.imageBase64.isSome = st.imageMimeType.isSome →
      (step st e).imageBase64.isSome = (step st e).imageMimeType.isSome := by
    intro st e hinv
    cases e with
    | exampleSelect v =>
      simp only [step, promptExamplesChange]
      split <;> simpa using hinv
    | upload f =>
      cases f with
      | none => simpa [step, imageUploadChange] using hinv
      | some dataUrl =>
        simp only [step, imageUploadChange, onloadCallback]
        split
        · split
          · simpa using hinv
          · simp
        · simpa using hinv
    | editSubmit outcome =>
      simp only [step, editButtonClick]
      by_cases hb : (!truthy st.imageBase64 || !truthy st.imageMimeType) = true
      · simpa [hb] using hinv
      · by_cases hp : isBlank st.promptValue = true
        · simpa [hb, hp] using hinv
        · simp only [hb, hp, if_false, Bool.false_eq_true]
          rw [(callGemini_imageFields st st.promptValue outcome).1,
            (callGemini_imageFields st st.promptValue outcome).2]
          exact hinv
    | download =>
      rw [step, downloadButtonClick_state]
      exact hinv
  refine ⟨hstep, ?_⟩
  intro st h
  induction h with
  | init => rfl
  | @next st hr e ih => exact hstep st e ih

theorem claim_C6_witness :
    (step initState Event.download).imageBase64.isSome =
      (step initState Event.download).imageMimeType.isSome ∧
    initState.imageBase64.isSome = initState.imageMimeType.isSome :=
  ⟨claim_C6.1 initState Event.download (by decide),
   claim_C6.2 initState Reachable.init⟩

/-- C7: a response with no candidate (absent or empty list) displays the
no-response advisory, and a first candidate none of whose parts carries
inline data or text displays the no-content advisory; in both cases the
download control ends hidden and no result image is stored. -/
theorem claim_C7 (st : SessionState) (prompt : String) (resp : GenResponse) :
    ((resp.candidates = none ∨ resp.candidates = some []) →
      (callGemini st prompt (Except.ok resp)).resultContainer =
        [Rendered.errorMsg noResponseMsg] ∧
      (callGemini st prompt (Except.ok resp)).downloadButtonHidden = true ∧
      (callGemini st prompt (Except.ok resp)).editedImageSrc = none) ∧
    (∀ (c : Candidate) (cs : List Candidate),
      resp.candidates = some (c :: cs) →
      (∀ p ∈ c.parts, p.inlineData = none ∧ p.text = none) →
      (callGemini st prompt (Except.ok resp)).resultContainer =
        [Rendered.errorMsg noContentMsg] ∧
      (callGemini st prompt (Except.ok resp)).downloadButtonHidden = true ∧
      (callGemini st prompt (Except.ok resp)).editedImageSrc = none) := by
  constructor
  · intro h
    have hr := handleResponse_noCandidates prompt resp (setLoading st) h
    refine ⟨?_, ?_, ?_⟩
    · show (handleResponse prompt resp (setLoading st)).resultContainer = _
      rw [hr]
      rfl
    · show (handleResponse prompt resp (setLoading st)).downloadButtonHidden = _
      rw [hr]
      rfl
    · show (handleResponse prompt resp (setLoading st)).editedImageSrc = _
      rw [hr]
      rfl
  · intro c cs hc hparts
    obtain ⟨cands⟩ := resp
    have hc' : cands = some (c :: cs) := hc
    subst hc'
    have hfold := foldl_handlePart_of_empty prompt c.parts
      ({ setLoading st with resultContainer := [] }, false) hparts
    have hr : handleResponse prompt ⟨some (c :: cs)⟩ (setLoading st) =
        displayError noContentMsg
          { setLoading st with resultContainer := [] } := by
      show (if (c.parts.foldl (handlePart prompt)
              ({ setLoading st with resultContainer := [] }, false)).2 then
            (c.parts.foldl (handlePart prompt)
              ({ setLoading st with resultContainer := [] }, false)).1
          else
            displayError noContentMsg
              (c.parts.foldl (handlePart prompt)
                ({ setLoading st with resultContainer := [] }, false)).1) =
          displayError noContentMsg
            { setLoading st with resultContainer := [] }
      rw [hfold]
      rfl
    refine ⟨?_, ?_, ?_⟩
    · show (handleResponse prompt ⟨some (c :: cs)⟩
          (setLoading st)).resultContainer = _
      rw [hr]
      rfl
    · show (handleResponse prompt ⟨some (c :: cs)⟩
          (setLoading st)).downloadButtonHidden = _
      rw [hr]
      rfl
    · show (handleResponse prompt ⟨some (c :: cs)⟩
          (setLoading st)).editedImageSrc = _
      rw [hr]
      rfl

theorem claim_C7_witness :
    (callGemini initState "p" (Except.ok ⟨none⟩)).resultContainer =
      [Rendered.errorMsg noResponseMsg] ∧
    (callGemini initState "p" (Except.ok ⟨none⟩)).downloadButtonHidden
      = true ∧
    (callGemini initState "p" (Except.ok ⟨none⟩)).editedImageSrc = none :=
  (claim_C7 initState "p" ⟨none⟩).1 (Or.inl rfl)

/-- C8: in any reachable state, a download with no stored result shows
an alert and triggers no save, while a download with a stored result
triggers exactly one save of the stored URL under the fixed filename
`imagen-editada.png`; the session state never changes (lines 89-101). -/
theorem claim_C8 (st : SessionState) (h : Reachable st) :
    (st.editedImageSrc = none →
      downloadButtonClick st = ⟨st, [noDownloadMsg], []⟩) ∧
    (∀ u, st.editedImageSrc = some u →
      downloadButtonClick st = ⟨st, [], [(u, downloadFilename)]⟩) := by
  constructor
  · intro h0
    simp [downloadButtonClick, truthy, h0]
  · intro u hu
    have hne : u ≠ "" := reachable_result_nonempty h u hu
    have hie : u.isEmpty = false := by
      cases hi : u.isEmpty with
      | false => rfl
      | true => exact absurd ((String.isEmpty_iff u).mp hi) hne
    simp [downloadButtonClick, hu, truthy, hie]

theorem claim_C8_witness :
    downloadButtonClick initState = ⟨initState, [noDownloadMsg], []⟩ :=
  (claim_C8 initState Reachable.init).1 rfl

/-- C9 counterexample: choosing the empty dropdown value does not
overwrite the prompt — the handler's truthiness guard (line 32) skips
it — refuting that every selection overwrites the prompt verbatim with
no validation of the chosen value. -/
theorem claim_C9_counterexample :
    ¬ (promptExamplesChange "" initState =
        { initState with promptValue := "" }) := by decide

/-- C9 (amended): choosing a non-empty value overwrites the prompt text
with it verbatim, with no further validation; choosing the empty value
leaves the prompt unchanged. -/
theorem claim_C9_amended (v : String) (st : SessionState) :
    (v ≠ "" → promptExamplesChange v st = { st with promptValue := v }) ∧
    promptExamplesChange "" st = st := by
  constructor
  · intro hv
    have hne : v.isEmpty = false := by
      rcases h : v.isEmpty with _ | _
      · rfl
      · exact absurd ((String.isEmpty_iff v).mp h) hv
    simp [promptExamplesChange, hne]
  · have h0 : ("" : String).isEmpty = true := by decide
    simp [promptExamplesChange, h0]

theorem claim_C9_witness :
    promptExamplesChange "hola" initState =
      { initState with promptValue := "hola" } ∧
    promptExamplesChange "" initState = initState :=
  ⟨(claim_C9_amended "hola" initState).1 (by decide),
   (claim_C9_amended "" initState).2⟩

/-- C10: a part carrying both inline binary data and text is handled
exactly like the same part without its text: the `else if` of line 155
is never reached, so only the image is rendered and stored, and no text
block is emitted for that part. -/
theorem claim_C10 (prompt : String) (acc : SessionState × Bool)
    (d : InlineData) (t : String) :
    handlePart prompt acc ⟨some d, some t⟩ =
      handlePart prompt acc ⟨some d, none⟩ ∧
    (handlePart prompt acc ⟨some d, some t⟩).1.resultContainer =
      acc.1.resultContainer ++ [Rendered.image (mkDataUrl d) prompt] ∧
    (handlePart prompt acc ⟨some d, some t⟩).1.editedImageSrc =
      some (mkDataUrl d) :=
  ⟨rfl, rfl, rfl⟩

end ImgEdit
